import Mathlib

/-!
Shallow embedding of the kinematic-chain transform engine of
`robotics-kinematics-quaternion-demo` (src/src/main.rs), with the
dual-quaternion algebra of the external `static_math` crate modelled from
the specification's contract (spec.md §4.1-§4.2), since that crate's code
is not part of the repository sources.

Floating-point (`f32`) arithmetic is modelled by exact real arithmetic.
-/

noncomputable section

/-- A 3-component real vector, modelling bevy `Vec3`. -/
structure V3 where
  x : ℝ
  y : ℝ
  z : ℝ
deriving DecidableEq

namespace V3

/-- The zero vector (`Vec3::default()` / `Vec3::ZERO`). -/
def zero : V3 := ⟨0, 0, 0⟩

/-- The all-ones vector (`Vec3::ONE`). -/
def one : V3 := ⟨1, 1, 1⟩

/-- Componentwise addition (`Vec3 + Vec3`). -/
def add (a b : V3) : V3 := ⟨a.x + b.x, a.y + b.y, a.z + b.z⟩

/-- Scalar multiplication (`f32 * Vec3` / `Vec3 * f32`, which glam defines
componentwise). -/
def smul (k : ℝ) (v : V3) : V3 := ⟨k * v.x, k * v.y, k * v.z⟩

/-- Componentwise product (`Vec3 * Vec3` in glam). -/
def hadamard (a b : V3) : V3 := ⟨a.x * b.x, a.y * b.y, a.z * b.z⟩

/-- Division of a vector by a scalar (`Vec3 / f32`). -/
def divScalar (v : V3) (k : ℝ) : V3 := ⟨v.x / k, v.y / k, v.z / k⟩

/-- Cross product (glam `Vec3::cross`). -/
def cross (a b : V3) : V3 :=
  ⟨a.y * b.z - a.z * b.y, a.z * b.x - a.x * b.z, a.x * b.y - a.y * b.x⟩

/-- Componentwise sine, the `SinVec3::sin` extension of src/src/main.rs. -/
def sin (v : V3) : V3 := ⟨Real.sin v.x, Real.sin v.y, Real.sin v.z⟩

/-- Componentwise cosine, the `SinVec3::cos` extension of src/src/main.rs. -/
def cos (v : V3) : V3 := ⟨Real.cos v.x, Real.cos v.y, Real.cos v.z⟩

/-- Euclidean norm of a 3-vector. -/
def norm (v : V3) : ℝ := Real.sqrt (v.x ^ 2 + v.y ^ 2 + v.z ^ 2)

end V3

/-- A quaternion of the `static_math` crate: scalar (real) part `r` and
imaginary 3-vector part `(i, j, k)`.  Modelled from the spec: §4.1 quaternion
algebra contract of a crate whose code is outside the repository. -/
structure SQuat where
  r : ℝ
  i : ℝ
  j : ℝ
  k : ℝ
deriving DecidableEq

namespace SQuat

/-- Modelled from the spec: `multiply(a, b)` is the standard Hamilton
product (spec.md §4.1). -/
def mul (a b : SQuat) : SQuat :=
  ⟨a.r * b.r - a.i * b.i - a.j * b.j - a.k * b.k,
   a.r * b.i + a.i * b.r + a.j * b.k - a.k * b.j,
   a.r * b.j - a.i * b.k + a.j * b.r + a.k * b.i,
   a.r * b.k + a.i * b.j - a.j * b.i + a.k * b.r⟩

/-- Quaternion addition. -/
def add (a b : SQuat) : SQuat := ⟨a.r + b.r, a.i + b.i, a.j + b.j, a.k + b.k⟩

/-- Scalar multiple of a quaternion. -/
def smul (c : ℝ) (a : SQuat) : SQuat := ⟨c * a.r, c * a.i, c * a.j, c * a.k⟩

/-- Quaternion conjugate. -/
def conj (a : SQuat) : SQuat := ⟨a.r, -a.i, -a.j, -a.k⟩

/-- The identity quaternion: scalar 1, vector 0 (spec.md §4.2 `identity()`
real part). -/
def one : SQuat := ⟨1, 0, 0, 0⟩

/-- Squared Euclidean norm of the 4 components. -/
def normSq (a : SQuat) : ℝ := a.r ^ 2 + a.i ^ 2 + a.j ^ 2 + a.k ^ 2

/-- The scalar part, `Quaternion::real()` of `static_math`. -/
def real (a : SQuat) : ℝ := a.r

/-- The imaginary 3-vector part, `Quaternion::imag()` of `static_math`. -/
def imag (a : SQuat) : V3 := ⟨a.i, a.j, a.k⟩

end SQuat

/-- A dual quaternion of the `static_math` crate: a real (rotation)
quaternion and a dual (translation-encoding) quaternion (spec.md §4.2). -/
structure DualQuaternion where
  real : SQuat
  dual : SQuat
deriving DecidableEq

namespace DualQuaternion

/-- Modelled from the spec: `multiply(a, b)` composes as
`real = a.real * b.real`, `dual = a.real * b.dual + a.dual * b.real`
(spec.md §4.2). -/
def mul (a b : DualQuaternion) : DualQuaternion :=
  ⟨a.real.mul b.real, (a.real.mul b.dual).add (a.dual.mul b.real)⟩

/-- Modelled from the spec: the identity dual quaternion
`DualQuaternion::one()` has real part scalar 1 / vector 0 and dual part 0
(spec.md §4.2 `identity()`). -/
def one : DualQuaternion := ⟨SQuat.one, ⟨0, 0, 0, 0⟩⟩

/-- `DualQuaternion::new_from_array` as used by src/src/main.rs lines
326-337: the first three entries are the imaginary components of the real
quaternion, the fourth its scalar component, and the last three the
imaginary (translation) components of the dual quaternion, whose scalar
component is zero.  Modelled from the spec: §4.2 `new(real, dual)` applied
to the layout documented by the source's own comments. -/
def new_from_array (a0 a1 a2 a3 a4 a5 a6 : ℝ) : DualQuaternion :=
  ⟨⟨a3, a0, a1, a2⟩, ⟨0, a4, a5, a6⟩⟩

end DualQuaternion

/-- Modelled from the spec: `translation_part(dq)` recovers the translation
vector as `2 * dq.dual * conjugate(dq.real)`, taking only the imaginary
components of the result (spec.md §4.2). -/
def translation_part (dq : DualQuaternion) : V3 :=
  (SQuat.smul 2 (dq.dual.mul dq.real.conj)).imag

/-- Modelled from the spec: `rotation_part(dq)` returns `dq.real` directly
(spec.md §4.2). -/
def rotation_part (dq : DualQuaternion) : SQuat := dq.real

/-- Modelled from the spec: `exponential_map(axis_angle_half_vector)`
converts a 3-vector (axis scaled by half-angle) into a unit quaternion via
the quaternion exponential (spec.md §4.1): scalar part `cos ‖v‖`, vector
part `(sin ‖v‖ / ‖v‖) • v`. -/
def exponential_map (v : V3) : SQuat :=
  ⟨Real.cos v.norm,
   Real.sin v.norm / v.norm * v.x,
   Real.sin v.norm / v.norm * v.y,
   Real.sin v.norm / v.norm * v.z⟩

/-- A bevy quaternion in `(x, y, z, w)` component order. -/
structure Quat where
  x : ℝ
  y : ℝ
  z : ℝ
  w : ℝ
deriving DecidableEq

namespace Quat

/-- `Quat::from_xyzw`. -/
def from_xyzw (x y z w : ℝ) : Quat := ⟨x, y, z, w⟩

/-- The identity rotation `Quat::IDENTITY = (0, 0, 0, 1)`. -/
def identity : Quat := ⟨0, 0, 0, 1⟩

/-- Hamilton product in glam's `(x, y, z, w)` layout (`Quat * Quat`). -/
def mul (a b : Quat) : Quat :=
  ⟨a.w * b.x + a.x * b.w + a.y * b.z - a.z * b.y,
   a.w * b.y - a.x * b.z + a.y * b.w + a.z * b.x,
   a.w * b.z + a.x * b.y - a.y * b.x + a.z * b.w,
   a.w * b.w - a.x * b.x - a.y * b.y - a.z * b.z⟩

/-- The length of a bevy quaternion. -/
def length (q : Quat) : ℝ := Real.sqrt (q.x ^ 2 + q.y ^ 2 + q.z ^ 2 + q.w ^ 2)

/-- `Quat::normalize`: the quaternion scaled by the reciprocal of its
length. -/
def normalize (q : Quat) : Quat :=
  ⟨q.x / q.length, q.y / q.length, q.z / q.length, q.w / q.length⟩

/-- The imaginary 3-vector of a bevy quaternion (`.xyz()`). -/
def xyz (q : Quat) : V3 := ⟨q.x, q.y, q.z⟩

/-- Rotation of a vector by a quaternion, glam `Quat::mul_vec3`:
`t = 2 (q.xyz × v); v + w t + q.xyz × t`. -/
def mulVec3 (q : Quat) (v : V3) : V3 :=
  let t := V3.smul 2 (V3.cross q.xyz v)
  (v.add (V3.smul q.w t)).add (V3.cross q.xyz t)

end Quat

/-- Conversion from a `static_math` quaternion to a bevy quaternion,
`InternalFrom<static_math::Quaternion<f32>> for Quat` of src/src/main.rs:
`Quat::from_xyzw(imag[0], imag[1], imag[2], real)`. -/
def Quat.ext_from (q : SQuat) : Quat :=
  Quat.from_xyzw q.imag.x q.imag.y q.imag.z q.real

/-- A bevy `Transform`: translation, rotation, scale. -/
structure Transform where
  translation : V3
  rotation : Quat
  scale : V3
deriving DecidableEq

namespace Transform

/-- `Transform::default()` / `Transform::IDENTITY`. -/
def default : Transform := ⟨V3.zero, Quat.identity, V3.one⟩

/-- `Transform::from_translation`: identity rotation and unit scale. -/
def from_translation (t : V3) : Transform := ⟨t, Quat.identity, V3.one⟩

/-- `Transform::from_xyz`. -/
def from_xyz (x y z : ℝ) : Transform := from_translation ⟨x, y, z⟩

/-- Bevy `Transform * Transform` (`mul_transform`):
`translation = t₁ + R₁ (s₁ ⊙ t₂)`, `rotation = R₁ R₂`, `scale = s₁ ⊙ s₂`. -/
def mul (a b : Transform) : Transform :=
  ⟨a.translation.add (a.rotation.mulVec3 (a.scale.hadamard b.translation)),
   a.rotation.mul b.rotation,
   a.scale.hadamard b.scale⟩

end Transform

/-- The per-joint control vector `DualQuatCtrls` of src/src/main.rs. -/
structure DualQuatCtrls where
  theta : ℝ
  rot : V3
  rigid_body_comps : V3

/-- `DualQuatCtrls::default()`: theta initialized to the small non-zero
constant 0.001, rotation axis and rigid-body components zero
(src/src/main.rs lines 15-26). -/
def DualQuatCtrls.default : DualQuatCtrls := ⟨0.001, V3.zero, V3.zero⟩

/-- A `Transformable` component: the segment's static node transform and
its chain-index `id` (src/src/main.rs lines 37-41). -/
structure Transformable where
  node_transform : Transform
  id : ℕ

/-- The `dq_from_ctrls` closure of src/src/main.rs lines 315-338: scales
the rotation axis by 100, builds the real quaternion from componentwise
sines of `(theta * rot) / 2` and scalar `cos(theta / 2)`, the dual vector
as `(0.5 * rigid_body_comps) * cos(theta / 2)`, and assembles the dual
quaternion from the 7-entry array. -/
def dq_from_ctrls (ctrls : DualQuatCtrls) : DualQuaternion :=
  let rot := V3.smul 100 ctrls.rot
  let theta := ctrls.theta
  let real_quat := ((V3.smul theta rot).divScalar 2).sin
  let real_quat_w := Real.cos (theta / 2)
  let imag_quat := V3.smul (Real.cos (theta / 2)) (V3.smul 0.5 ctrls.rigid_body_comps)
  DualQuaternion.new_from_array
    real_quat.x real_quat.y real_quat.z
    real_quat_w
    imag_quat.x imag_quat.y imag_quat.z

/-- The per-segment cumulative dual quaternion of `transform_ui`
(src/src/main.rs lines 345-359): the match on `transformable.id` with the
identity dual quaternion `base_dual_quat` as left seed, left-associative
products, and a panic (`none`) on any id not in `{0, 1, 2}`. -/
def chainDQ (c1 c2 c3 : DualQuatCtrls) (id : ℕ) : Option DualQuaternion :=
  let dq1 := dq_from_ctrls c1
  let dq2 := dq_from_ctrls c2
  let dq3 := dq_from_ctrls c3
  let base_dual_quat := DualQuaternion.one
  match id with
  | 0 => some (base_dual_quat.mul dq1)
  | 1 => some ((base_dual_quat.mul dq1).mul dq2)
  | 2 => some (((base_dual_quat.mul dq1).mul dq2).mul dq3)
  | _ => none

/-- The `quat_trans` transform of src/src/main.rs lines 362-366: rotation
is the normalized bevy conversion of `dq.real()`, translation the
imaginary components of `dq.dual()`, scale `Vec3::ONE`. -/
def quat_trans (dq : DualQuaternion) : Transform :=
  ⟨(Quat.ext_from dq.dual).xyz, (Quat.ext_from dq.real).normalize, V3.one⟩

/-- The `arm_trans` static chain offset of src/src/main.rs lines 370-374:
identity for id 0, a pure translation `(0, 0, id * 5)` for id ≥ 1. -/
def arm_trans (id : ℕ) : Transform :=
  match id with
  | 0 => Transform.default
  | _ + 1 => Transform.from_translation ⟨0, 0, (id : ℝ) * 5⟩

/-- One iteration of the `transform_ui` segment loop (src/src/main.rs lines
348-378): compute the cumulative dual quaternion for the segment's id
(panicking, i.e. `none`, outside `{0, 1, 2}`), then build
`quat_trans * arm_trans * node_transform` (left-associative bevy transform
product). -/
def transform_ui_segment (c1 c2 c3 : DualQuatCtrls) (seg : Transformable) :
    Option Transform :=
  (chainDQ c1 c2 c3 seg.id).map fun dq =>
    ((quat_trans dq).mul (arm_trans seg.id)).mul seg.node_transform

/-- Left multiplication by the identity dual quaternion is trivial. -/
theorem DualQuaternion.one_mul (dq : DualQuaternion) : DualQuaternion.one.mul dq = dq := by
  obtain ⟨⟨r, i, j, k⟩, ⟨dr, di, dj, dk⟩⟩ := dq
  simp [DualQuaternion.mul, DualQuaternion.one, SQuat.mul, SQuat.one, SQuat.add]

/-- Right multiplication by the identity dual quaternion is trivial. -/
theorem DualQuaternion.mul_one (dq : DualQuaternion) : dq.mul DualQuaternion.one = dq := by
  obtain ⟨⟨r, i, j, k⟩, ⟨dr, di, dj, dk⟩⟩ := dq
  simp [DualQuaternion.mul, DualQuaternion.one, SQuat.mul, SQuat.one, SQuat.add]

/-- Bevy transform multiplication associates when the left factor has unit
scale and the middle factor is a pure translation (identity rotation, unit
scale), which is the shape of every product built by `transform_ui`. -/
theorem Transform.mul_assoc_of (q a n : Transform) (hqs : q.scale = V3.one)
    (har : a.rotation = Quat.identity) (has : a.scale = V3.one) :
    (q.mul a).mul n = q.mul (a.mul n) := by
  obtain ⟨tq, rq, sq⟩ := q
  obtain ⟨ta, ra, sa⟩ := a
  obtain ⟨tn, rn, sn⟩ := n
  dsimp only at hqs har has
  subst hqs har has
  obtain ⟨qx, qy, qz, qw⟩ := rq
  obtain ⟨tqx, tqy, tqz⟩ := tq
  obtain ⟨tax, tay, taz⟩ := ta
  obtain ⟨tnx, tny, tnz⟩ := tn
  obtain ⟨rnx, rny, rnz, rnw⟩ := rn
  obtain ⟨snx, sny, snz⟩ := sn
  simp only [Transform.mul, Quat.mul, Quat.mulVec3, Quat.xyz, Quat.identity,
    V3.add, V3.smul, V3.hadamard, V3.cross, V3.one, Transform.mk.injEq,
    V3.mk.injEq, Quat.mk.injEq]
  refine ⟨⟨?_, ?_, ?_⟩, ⟨?_, ?_, ?_, ?_⟩, ?_, ?_, ?_⟩ <;> ring

/-- C4: for chain-indices 0, 1 and 2 the cumulative transform of
`transform_ui` is the left-associative product of the per-joint dual
quaternions in chain order, seeded with the identity dual quaternion on the
left and with no re-normalization of intermediate products: it equals the
left fold of dual-quaternion multiplication over the prefix of
`[dq_1, dq_2, dq_3]` of length id + 1, started at the identity. -/
theorem C4_chain_left_fold (c1 c2 c3 : DualQuatCtrls) :
    chainDQ c1 c2 c3 0 = some (List.foldl DualQuaternion.mul DualQuaternion.one
      (List.take 1 [dq_from_ctrls c1, dq_from_ctrls c2, dq_from_ctrls c3])) ∧
    chainDQ c1 c2 c3 1 = some (List.foldl DualQuaternion.mul DualQuaternion.one
      (List.take 2 [dq_from_ctrls c1, dq_from_ctrls c2, dq_from_ctrls c3])) ∧
    chainDQ c1 c2 c3 2 = some (List.foldl DualQuaternion.mul DualQuaternion.one
      (List.take 3 [dq_from_ctrls c1, dq_from_ctrls c2, dq_from_ctrls c3])) :=
  ⟨rfl, rfl, rfl⟩

/-- C5: for every joint control vector the dual (translation-encoding) part
of the joint's dual quaternion is the pure-vector quaternion whose
components are `0.5 * rigid_body_comps * cos(theta / 2)`, so the
translation contribution is modulated by the rotation parameter theta. -/
theorem C5_dual_part (ctrls : DualQuatCtrls) :
    (dq_from_ctrls ctrls).dual =
      ⟨0,
       0.5 * ctrls.rigid_body_comps.x * Real.cos (ctrls.theta / 2),
       0.5 * ctrls.rigid_body_comps.y * Real.cos (ctrls.theta / 2),
       0.5 * ctrls.rigid_body_comps.z * Real.cos (ctrls.theta / 2)⟩ := by
  simp only [dq_from_ctrls, DualQuaternion.new_from_array, V3.smul, SQuat.mk.injEq]
  exact ⟨trivial, by ring, by ring, by ring⟩

/-- C7: evaluating a segment's pose aborts (modelled as `none`, the panic
in `transform_ui`) exactly when the segment's chain-index is outside
`{0, 1, 2}`; for chain-indices 0, 1, 2 a pose is produced. -/
theorem C7_out_of_range_fatal (c1 c2 c3 : DualQuatCtrls) (seg : Transformable) :
    transform_ui_segment c1 c2 c3 seg = none ↔ 3 ≤ seg.id := by
  obtain ⟨node, id⟩ := seg
  match id with
  | 0 => simp [transform_ui_segment, chainDQ]
  | 1 => simp [transform_ui_segment, chainDQ]
  | 2 => simp [transform_ui_segment, chainDQ]
  | n + 3 => simp [transform_ui_segment, chainDQ]

/-- C9: the identity dual quaternion is a two-sided identity for
dual-quaternion multiplication on unit dual quaternions, and in particular
the identity left seed of the chain composer leaves the segment-0
cumulative transform equal to the first joint's dual quaternion. -/
theorem C9_identity_law :
    (∀ dq : DualQuaternion, dq.real.normSq = 1 →
      DualQuaternion.one.mul dq = dq ∧ dq.mul DualQuaternion.one = dq) ∧
    ∀ c1 c2 c3 : DualQuatCtrls, chainDQ c1 c2 c3 0 = some (dq_from_ctrls c1) := by
  refine ⟨fun dq _ => ⟨DualQuaternion.one_mul dq, DualQuaternion.mul_one dq⟩, ?_⟩
  intro c1 c2 c3
  simp [chainDQ, DualQuaternion.one_mul]

/-- C9 witness: the identity dual quaternion itself is a unit dual
quaternion and absorbs multiplication by the identity on both sides. -/
theorem C9_identity_law_witness :
    DualQuaternion.one.real.normSq = 1 ∧
    (DualQuaternion.one.mul DualQuaternion.one = DualQuaternion.one ∧
      DualQuaternion.one.mul DualQuaternion.one = DualQuaternion.one) :=
  ⟨by simp [DualQuaternion.one, SQuat.one, SQuat.normSq],
   C9_identity_law.1 DualQuaternion.one
     (by simp [DualQuaternion.one, SQuat.one, SQuat.normSq])⟩

/-- C10: the per-segment static chain offset is hard-coded from the
chain-index: identity for chain-index 0, a pure translation `(0, 0, 5 * i)`
for chain-index i ≥ 1, and it is applied between the chain transform and
the segment's own node transform. -/
theorem C10_arm_offsets :
    arm_trans 0 = Transform.default ∧
    (∀ i : ℕ, 1 ≤ i → arm_trans i = Transform.from_translation ⟨0, 0, 5 * (i : ℝ)⟩) ∧
    ∀ (c1 c2 c3 : DualQuatCtrls) (seg : Transformable) (dq : DualQuaternion),
      chainDQ c1 c2 c3 seg.id = some dq →
      transform_ui_segment c1 c2 c3 seg =
        some (((quat_trans dq).mul (arm_trans seg.id)).mul seg.node_transform) := by
  refine ⟨rfl, ?_, ?_⟩
  · intro i hi
    obtain ⟨n, rfl⟩ : ∃ n, i = n + 1 := ⟨i - 1, by omega⟩
    simp only [arm_trans, Transform.from_translation, Transform.mk.injEq, V3.mk.injEq]
    exact ⟨⟨trivial, trivial, by ring⟩, trivial, trivial⟩
  · intro c1 c2 c3 seg dq h
    simp [transform_ui_segment, h]

/-- C10 witness: concrete instantiation at chain-index 1 with default
controls and an identity node transform. -/
theorem C10_arm_offsets_witness :
    (1 ≤ 1 ∧ arm_trans 1 = Transform.from_translation ⟨0, 0, 5 * ((1 : ℕ) : ℝ)⟩) ∧
    transform_ui_segment DualQuatCtrls.default DualQuatCtrls.default DualQuatCtrls.default
        ⟨Transform.default, 1⟩ =
      some (((quat_trans ((DualQuaternion.one.mul
          (dq_from_ctrls DualQuatCtrls.default)).mul
          (dq_from_ctrls DualQuatCtrls.default))).mul (arm_trans 1)).mul
        Transform.default) :=
  ⟨⟨le_refl 1, C10_arm_offsets.2.1 1 (le_refl 1)⟩,
   C10_arm_offsets.2.2 DualQuatCtrls.default DualQuatCtrls.default DualQuatCtrls.default
     ⟨Transform.default, 1⟩ _ rfl⟩

/-- C1 counterexample: with controls `theta = 0`, zero rotation axis and
rigid-body offset `(1, 0, 0)`, the composed dual quaternion handed to the
pose exporter for segment 0 yields an exported translation of
`(1/2, 0, 0)`, while `translation_part` of the spec's dual-quaternion
contract yields `(1, 0, 0)`: the two differ. -/
theorem C1_counterexample :
    chainDQ ⟨0, V3.zero, ⟨1, 0, 0⟩⟩ DualQuatCtrls.default DualQuatCtrls.default 0 =
      some (DualQuaternion.one.mul (dq_from_ctrls ⟨0, V3.zero, ⟨1, 0, 0⟩⟩)) ∧
    (quat_trans (DualQuaternion.one.mul
        (dq_from_ctrls ⟨0, V3.zero, ⟨1, 0, 0⟩⟩))).translation ≠
      translation_part (DualQuaternion.one.mul
        (dq_from_ctrls ⟨0, V3.zero, ⟨1, 0, 0⟩⟩)) := by
  refine ⟨rfl, ?_⟩
  have hdq : DualQuaternion.one.mul (dq_from_ctrls ⟨0, V3.zero, ⟨1, 0, 0⟩⟩) =
      ⟨⟨1, 0, 0, 0⟩, ⟨0, 1 / 2, 0, 0⟩⟩ := by
    simp [dq_from_ctrls, DualQuaternion.one, DualQuaternion.mul,
      DualQuaternion.new_from_array, SQuat.mul, SQuat.add, SQuat.one,
      V3.smul, V3.divScalar, V3.sin, V3.zero]
    norm_num
  rw [hdq]
  simp [quat_trans, translation_part, SQuat.smul, SQuat.mul, SQuat.conj,
    SQuat.imag, Quat.ext_from, Quat.from_xyzw, Quat.xyz, V3.mk.injEq]

/-- C1 (amended): the translation handed to the renderer is the vector of
imaginary components of `dq.dual` taken directly, not the translation
recovered as `2 * dq.dual * conjugate(dq.real)`. -/
theorem C1_export_translation (dq : DualQuaternion) :
    (quat_trans dq).translation = dq.dual.imag := rfl

/-- C2 counterexample: at `theta = π/2`, rotation axis `(1/50, 0, 0)` and
zero offset, the code's real quaternion has scalar part `cos(π/4) = √2/2`,
while the exponential map of the half-angle vector
`theta * scaled_axis / 2 = (π/2, 0, 0)` has scalar part `cos(π/2) = 0`:
the joint parameterization does not follow the exponential-map path. -/
theorem C2_counterexample :
    (dq_from_ctrls ⟨Real.pi / 2, ⟨1 / 50, 0, 0⟩, V3.zero⟩).real ≠
      exponential_map
        ((V3.smul (Real.pi / 2) (V3.smul 100 ⟨1 / 50, 0, 0⟩)).divScalar 2) := by
  intro h
  have hv : (V3.smul (Real.pi / 2) (V3.smul 100 ⟨1 / 50, 0, 0⟩)).divScalar 2 =
      ⟨Real.pi / 2, 0, 0⟩ := by
    simp only [V3.smul, V3.divScalar, V3.mk.injEq]
    norm_num
  have hnorm : V3.norm ⟨Real.pi / 2, 0, 0⟩ = Real.pi / 2 := by
    simp only [V3.norm]
    rw [show ((Real.pi / 2) ^ 2 + 0 ^ 2 + 0 ^ 2 : ℝ) = (Real.pi / 2) ^ 2 by ring]
    exact Real.sqrt_sq (by positivity)
  have hr : Real.cos (Real.pi / 2 / 2) =
      Real.cos (V3.norm ((V3.smul (Real.pi / 2)
        (V3.smul 100 ⟨1 / 50, 0, 0⟩)).divScalar 2)) := congrArg SQuat.r h
  rw [hv, hnorm, Real.cos_pi_div_two,
    show Real.pi / 2 / 2 = Real.pi / 4 by ring, Real.cos_pi_div_four] at hr
  have hpos : (0 : ℝ) < Real.sqrt 2 / 2 := by positivity
  linarith

/-- C2 (amended): the joint parameterization builds the real quaternion by
a trigonometric construction: the vector part is the componentwise sine of
`theta * scaled_axis / 2` and the scalar part is `cos(theta / 2)`. -/
theorem C2_trig_real_part (ctrls : DualQuatCtrls) :
    (dq_from_ctrls ctrls).real =
      ⟨Real.cos (ctrls.theta / 2),
       Real.sin (ctrls.theta * (100 * ctrls.rot.x) / 2),
       Real.sin (ctrls.theta * (100 * ctrls.rot.y) / 2),
       Real.sin (ctrls.theta * (100 * ctrls.rot.z) / 2)⟩ := rfl

/-- C3 counterexample: at the finite control vector `theta = π`, zero
rotation axis and zero offset, the real part of the produced dual
quaternion is the zero quaternion (squared norm 0, not 1). -/
theorem C3_counterexample :
    ((dq_from_ctrls ⟨Real.pi, V3.zero, V3.zero⟩).real).normSq ≠ 1 := by
  have h0 : ((dq_from_ctrls ⟨Real.pi, V3.zero, V3.zero⟩).real).normSq = 0 := by
    simp [dq_from_ctrls, SQuat.normSq, DualQuaternion.new_from_array,
      V3.smul, V3.divScalar, V3.sin, V3.zero, Real.cos_pi_div_two]
  rw [h0]
  norm_num

/-- C3 (amended): the real part of the joint dual quaternion has squared
norm `sin²(θ·100·rx/2) + sin²(θ·100·ry/2) + sin²(θ·100·rz/2) + cos²(θ/2)`,
which is not 1 in general; the exported rotation is made unit only by the
pose exporter's normalization. -/
theorem C3_real_normSq (ctrls : DualQuatCtrls) :
    ((dq_from_ctrls ctrls).real).normSq =
      Real.sin (ctrls.theta * (100 * ctrls.rot.x) / 2) ^ 2 +
      Real.sin (ctrls.theta * (100 * ctrls.rot.y) / 2) ^ 2 +
      Real.sin (ctrls.theta * (100 * ctrls.rot.z) / 2) ^ 2 +
      Real.cos (ctrls.theta / 2) ^ 2 := by
  simp only [SQuat.normSq, dq_from_ctrls, DualQuaternion.new_from_array,
    V3.smul, V3.divScalar, V3.sin]
  ring

/-- C6: for every segment with chain-index in `{0, 1, 2}` the exported
pose has rotation `normalize(rotation_part(dq))` and unit scale, and the
final pose is the chain transform composed (on the left) with the
segment's static local transform `arm_trans * node_transform`. -/
theorem C6_pose_export (c1 c2 c3 : DualQuatCtrls) (node : Transform) (id : ℕ)
    (h : id ≤ 2) :
    ∃ dq, chainDQ c1 c2 c3 id = some dq ∧
      transform_ui_segment c1 c2 c3 ⟨node, id⟩ =
        some ((quat_trans dq).mul ((arm_trans id).mul node)) ∧
      (quat_trans dq).rotation = (Quat.ext_from (rotation_part dq)).normalize ∧
      (quat_trans dq).scale = V3.one := by
  have harm_r : ∀ i : ℕ, (arm_trans i).rotation = Quat.identity := by
    intro i
    match i with
    | 0 => rfl
    | _ + 1 => rfl
  have harm_s : ∀ i : ℕ, (arm_trans i).scale = V3.one := by
    intro i
    match i with
    | 0 => rfl
    | _ + 1 => rfl
  match id, h with
  | 0, _ =>
    refine ⟨DualQuaternion.one.mul (dq_from_ctrls c1), rfl, ?_, rfl, rfl⟩
    have he : transform_ui_segment c1 c2 c3 ⟨node, 0⟩ =
        some (((quat_trans (DualQuaternion.one.mul (dq_from_ctrls c1))).mul
          (arm_trans 0)).mul node) := rfl
    rw [he, Transform.mul_assoc_of _ _ _ rfl (harm_r 0) (harm_s 0)]
  | 1, _ =>
    refine ⟨(DualQuaternion.one.mul (dq_from_ctrls c1)).mul (dq_from_ctrls c2),
      rfl, ?_, rfl, rfl⟩
    have he : transform_ui_segment c1 c2 c3 ⟨node, 1⟩ =
        some (((quat_trans ((DualQuaternion.one.mul (dq_from_ctrls c1)).mul
          (dq_from_ctrls c2))).mul (arm_trans 1)).mul node) := rfl
    rw [he, Transform.mul_assoc_of _ _ _ rfl (harm_r 1) (harm_s 1)]
  | 2, _ =>
    refine ⟨((DualQuaternion.one.mul (dq_from_ctrls c1)).mul
      (dq_from_ctrls c2)).mul (dq_from_ctrls c3), rfl, ?_, rfl, rfl⟩
    have he : transform_ui_segment c1 c2 c3 ⟨node, 2⟩ =
        some (((quat_trans (((DualQuaternion.one.mul (dq_from_ctrls c1)).mul
          (dq_from_ctrls c2)).mul (dq_from_ctrls c3))).mul
          (arm_trans 2)).mul node) := rfl
    rw [he, Transform.mul_assoc_of _ _ _ rfl (harm_r 2) (harm_s 2)]

/-- C6 witness: concrete instantiation at chain-index 0 with default
controls and an identity node transform. -/
theorem C6_pose_export_witness :
    (0 : ℕ) ≤ 2 ∧ ∃ dq,
      chainDQ DualQuatCtrls.default DualQuatCtrls.default DualQuatCtrls.default 0 =
        some dq ∧
      transform_ui_segment DualQuatCtrls.default DualQuatCtrls.default
          DualQuatCtrls.default ⟨Transform.default, 0⟩ =
        some ((quat_trans dq).mul ((arm_trans 0).mul Transform.default)) ∧
      (quat_trans dq).rotation = (Quat.ext_from (rotation_part dq)).normalize ∧
      (quat_trans dq).scale = V3.one :=
  ⟨Nat.zero_le 2,
   C6_pose_export DualQuatCtrls.default DualQuatCtrls.default DualQuatCtrls.default
     Transform.default 0 (Nat.zero_le 2)⟩

/-- C8: the default joint controls initialize theta to the small non-zero
constant 0.001 with zero axis and offset; theta enters the dual-quaternion
algebra unclamped (the scalar part is `cos(theta/2)` for every real
theta); and for every control values and every segment with chain-index in
`{0, 1, 2}` the pose computation produces a result (no abort). -/
theorem C8_total_and_unclamped :
    DualQuatCtrls.default.theta = 0.001 ∧
    DualQuatCtrls.default.rot = V3.zero ∧
    DualQuatCtrls.default.rigid_body_comps = V3.zero ∧
    (∀ ctrls : DualQuatCtrls,
      ((dq_from_ctrls ctrls).real).r = Real.cos (ctrls.theta / 2)) ∧
    ∀ (c1 c2 c3 : DualQuatCtrls) (seg : Transformable), seg.id ≤ 2 →
      (transform_ui_segment c1 c2 c3 seg).isSome = true := by
  refine ⟨rfl, rfl, rfl, fun _ => rfl, ?_⟩
  intro c1 c2 c3 seg h
  obtain ⟨node, id⟩ := seg
  match id, h with
  | 0, _ => rfl
  | 1, _ => rfl
  | 2, _ => rfl

/-- C8 witness: with default controls, the segment of chain-index 2
receives a pose. -/
theorem C8_total_and_unclamped_witness :
    (((⟨Transform.default, 2⟩ : Transformable)).id ≤ 2) ∧
    (transform_ui_segment DualQuatCtrls.default DualQuatCtrls.default
      DualQuatCtrls.default ⟨Transform.default, 2⟩).isSome = true :=
  ⟨le_refl 2,
   C8_total_and_unclamped.2.2.2.2 DualQuatCtrls.default DualQuatCtrls.default
     DualQuatCtrls.default ⟨Transform.default, 2⟩ (le_refl 2)⟩

end
